import Mathlib

/-!
Verification of the terminal trivia game (C sources: game.c, questions.c,
timer.c, utils.c) against its natural-language specification.

The C code is shallowly embedded: pure C functions become Lean functions on
Int (C `int`; division by 2 is C truncated division, `Int.tdiv`), strings
become `List Char`, the stateful game loop becomes explicit state passing
over a script of round events, and the pthread countdown becomes an
event-labelled transition system whose events are the code's mutex-protected
critical sections.
-/

namespace Trivia

/-- Difficulty levels, from questions.h (DIFFICULTY_EASY = 0, MEDIUM, HARD). -/
inductive Difficulty : Type
  | easy
  | medium
  | hard
deriving DecidableEq, Repr

/-- MAX_OPTIONS from questions.h. -/
def MAX_OPTIONS : Nat := 4

/-- INT_MIN for a 32-bit C int. -/
def INT_MIN : Int := -2147483648

/-- INT_MAX for a 32-bit C int. -/
def INT_MAX : Int := 2147483647

/-- Base points by difficulty, from the switch in game_calculate_score
(game.c lines 100-113).  The `default` branch of the switch is unreachable
for the three-constructor `Difficulty` type. -/
def base_points : Difficulty → Int
  | .easy => 10
  | .medium => 20
  | .hard => 30

/-- game_calculate_score (game.c lines 94-119).  C `int` division truncates
toward zero, which is `Int.tdiv`. -/
def game_calculate_score (correct : Bool) (time_remaining : Int)
    (difficulty : Difficulty) : Int :=
  if !correct then 0
  else base_points difficulty + Int.tdiv time_remaining 2

/-- C isspace over the characters it accepts in the "C" locale. -/
def c_isspace (c : Char) : Bool :=
  c == ' ' || c == '\t' || c == '\n' || c == '\x0b' || c == '\x0c' || c == '\r'

/-- sanitize_input (utils.c): trim leading and trailing whitespace in place. -/
def sanitize_input (s : List Char) : List Char :=
  ((s.dropWhile c_isspace).reverse.dropWhile c_isspace).reverse

/-- Numeric value of a decimal digit character. -/
def digitVal (c : Char) : Nat := c.toNat - 48

/-- is_valid_integer (utils.c): strict whole-string strtol base 10 —
empty string rejected, optional leading whitespace skipped by strtol, one
optional sign, at least one digit, nothing after the digits, and the value
within the 32-bit int range.  Returns the parsed value on success. -/
def is_valid_integer (s : List Char) : Option Int :=
  if s = [] then none
  else
    let t := s.dropWhile c_isspace
    let neg : Bool := t.head? = some '-'
    let signed : Bool := neg || t.head? = some '+'
    let t2 := if signed then t.tail else t
    let ds := t2.takeWhile Char.isDigit
    if ds = [] then none
    else if t2.dropWhile Char.isDigit ≠ [] then none
    else
      let mag : Int := (ds.foldl (fun a c => a * 10 + digitVal c) 0 : Nat)
      let v : Int := if neg then -mag else mag
      if v < INT_MIN ∨ INT_MAX < v then none else some v

/-- Classification of one sanitized input line inside game_ask_question. -/
inductive RoundInput : Type
  | quit
  | choice (n : Int)
  | invalid
deriving DecidableEq, Repr

/-- The per-line input classification of game_ask_question (game.c lines
179-196): after sanitizing, a line whose first character is q or Q is a quit;
a line that passes is_valid_integer with a value in [1, MAX_OPTIONS] is a
choice; everything else is invalid and causes a reprompt. -/
def classify_input (raw : List Char) : RoundInput :=
  let input := sanitize_input raw
  if input.head? = some 'q' ∨ input.head? = some 'Q' then .quit
  else
    match is_valid_integer input with
    | some n => if 1 ≤ n ∧ n ≤ (MAX_OPTIONS : Int) then .choice n else .invalid
    | none => .invalid

/-- The polling loop of game_ask_question (game.c lines 163-203), abstracted
over timing: the argument is the sequence of complete input lines received
before the countdown expires.  A quit returns -1, a valid choice returns it,
an invalid line reprompts and the loop continues; if the lines run out the
timer expires and the function returns 0 (timeout). -/
def game_ask_question : List (List Char) → Int
  | [] => 0
  | raw :: rest =>
    match classify_input raw with
    | .quit => -1
    | .choice n => n
    | .invalid => game_ask_question rest

/-- A parsed question (questions.h). -/
structure Question : Type where
  question : List Char
  options : List (List Char)
  correct_answer : Int
  difficulty : Difficulty
deriving DecidableEq, Repr

/-- A concrete question with only two options, used against claim C2. -/
def twoOptionQuestion : Question :=
  { question := ['Q'], options := [['a'], ['b']], correct_answer := 0,
    difficulty := .easy }

/-- Aggregate statistics record (game.h, used in single-player mode). -/
structure GameStats : Type where
  total_questions : Int
  correct_answers : Int
  wrong_answers : Int
  timeouts : Int
  score : Int
deriving DecidableEq, Repr

/-- Per-player accumulator (game.h); the display name is irrelevant to the
claims and omitted. -/
structure Player : Type where
  score : Int
  correct_answers : Int
  wrong_answers : Int
  timeouts : Int
deriving DecidableEq, Repr

/-- A freshly zeroed player, as produced by game_init_players. -/
def player_zero : Player := ⟨0, 0, 0, 0⟩

/-- The game state fields that the claims concern (game.h / game.c). -/
structure GameState : Type where
  num_players : Nat
  current_player : Nat
  players : List Player
  stats : GameStats
deriving DecidableEq, Repr

/-- game_init (game.c lines 15-49): zeroed aggregate stats, current player 0,
and a zeroed player array when num_players > 1. -/
def game_init (num_players : Nat) : GameState :=
  { num_players := num_players
    current_player := 0
    players := if 1 < num_players then List.replicate num_players player_zero else []
    stats := ⟨0, 0, 0, 0, 0⟩ }

/-- game_next_player (game.c lines 86-92): no-op for at most one player,
otherwise advance modulo the player count. -/
def game_next_player (num_players current : Nat) : Nat :=
  if num_players ≤ 1 then current else (current + 1) % num_players

/-- One resolved round of the game loop: the question data it used, the
value game_ask_question returned, and the timer reading at resolution
(config.time_per_question when the timer is disabled). -/
structure RoundEvent : Type where
  q_correct : Int
  q_difficulty : Difficulty
  user_answer : Int
  time_remaining : Int
deriving DecidableEq, Repr

/-- The per-round update of one player's stats in multiplayer mode
(game.c lines 282-303). -/
def update_player (ev : RoundEvent) (p : Player) : Player :=
  if ev.user_answer = 0 then { p with timeouts := p.timeouts + 1 }
  else if ev.user_answer = ev.q_correct + 1 then
    { p with correct_answers := p.correct_answers + 1,
             score := p.score +
               game_calculate_score true ev.time_remaining ev.q_difficulty }
  else { p with wrong_answers := p.wrong_answers + 1 }

/-- The per-round update of the aggregate stats in single-player mode
(game.c lines 304-325). -/
def update_stats (ev : RoundEvent) (st : GameStats) : GameStats :=
  let st := { st with total_questions := st.total_questions + 1 }
  if ev.user_answer = 0 then { st with timeouts := st.timeouts + 1 }
  else if ev.user_answer = ev.q_correct + 1 then
    { st with correct_answers := st.correct_answers + 1,
              score := st.score +
                game_calculate_score true ev.time_remaining ev.q_difficulty }
  else { st with wrong_answers := st.wrong_answers + 1 }

/-- The body of one non-quit iteration of the game loop (game.c lines
276-343): in multiplayer, update the current player (when the index is in
range, mirroring game_get_current_player) and rotate the turn; in
single-player, update the aggregate stats. -/
def play_round (ev : RoundEvent) (g : GameState) : GameState :=
  if 1 < g.num_players then
    { g with
      players :=
        if g.current_player < g.num_players then
          g.players.set g.current_player
            (update_player ev (g.players.getD g.current_player player_zero))
        else g.players
      current_player := game_next_player g.num_players g.current_player }
  else
    { g with stats := update_stats ev g.stats }

/-- The game loop of game_run (game.c lines 255-344) over a script of
resolved rounds: a quit (user_answer = -1) breaks out immediately, before
any stat update; otherwise the round is applied and the loop continues. -/
def game_run_loop (g : GameState) : List RoundEvent → GameState
  | [] => g
  | ev :: rest =>
    if ev.user_answer = -1 then g
    else game_run_loop (play_round ev g) rest

/-- game_run's return value (game.c line 349): the aggregate stats score
field of the final state. -/
def game_run (g : GameState) (evs : List RoundEvent) : Int :=
  (game_run_loop g evs).stats.score

/-- The score a single-player session should accumulate over a script of
rounds: each round played to an answer contributes the calculated score when
the answer is correct, and the script is cut off at the first quit. -/
def rounds_score : List RoundEvent → Int
  | [] => 0
  | ev :: rest =>
    if ev.user_answer = -1 then 0
    else (if ev.user_answer ≠ 0 ∧ ev.user_answer = ev.q_correct + 1
          then game_calculate_score true ev.time_remaining ev.q_difficulty
          else 0) + rounds_score rest

/-- The winner-finding loop of game_display_stats (game.c lines 388-400):
scan the scores from index 1, keeping the running maximum, the first index
that attained it, and a tie flag that is set on an equal score and cleared on
a strictly greater one. -/
def find_winner_aux : List Int → Int → Nat → Nat → Bool → Int × Nat × Bool
  | [], mx, widx, _, tie => (mx, widx, tie)
  | s :: rest, mx, widx, i, tie =>
    if mx < s then find_winner_aux rest s i (i + 1) false
    else if s = mx then find_winner_aux rest mx widx (i + 1) true
    else find_winner_aux rest mx widx (i + 1) tie

/-- The winner computation of game_display_stats on the final score vector
s0 :: rest (the code requires at least one player). -/
def find_winner (s0 : Int) (rest : List Int) : Int × Nat × Bool :=
  find_winner_aux rest s0 0 1 false

/-- A question record at the structured level the ad hoc scanner of
questions.c extracts from one brace-delimited record: each field is present
or absent; options are the quoted strings of the options array in order;
correct is the integer value after the correct key. -/
structure RawRecord : Type where
  question : Option (List Char)
  options : Option (List (List Char))
  correct : Option Int
  difficulty : Option (List Char)
deriving DecidableEq, Repr

/-- The difficulty mapping of parse_json_question (questions.c lines 67-91):
strncmp against "easy" (length 4), "medium" (6) and "hard" (4) right after
the opening quote compares a fixed-length prefix of the field's string
value, checked in that order; an absent field or no match defaults to
easy.  (The closing quote cannot occur inside the value, so the strncmp
succeeds exactly when the keyword is a prefix of the value.) -/
def parse_difficulty : Option (List Char) → Difficulty
  | none => .easy
  | some s =>
    if List.isPrefixOf ['e', 'a', 's', 'y'] s then .easy
    else if List.isPrefixOf ['m', 'e', 'd', 'i', 'u', 'm'] s then .medium
    else if List.isPrefixOf ['h', 'a', 'r', 'd'] s then .hard
    else .easy

/-- parse_json_question (questions.c lines 11-96): fails when the question,
options or correct field is missing; reads at most MAX_OPTIONS options;
rejects a correct index outside [0, number of options read); the difficulty
defaults as above. -/
def parse_json_question (r : RawRecord) : Option Question :=
  match r.question, r.options, r.correct with
  | some qt, some opts, some c =>
    let opts := opts.take MAX_OPTIONS
    if c < 0 ∨ (opts.length : Int) ≤ c then none
    else some ⟨qt, opts, c, parse_difficulty r.difficulty⟩
  | _, _, _ => none

/-- One iteration of the loading loop of question_bank_load_from_json
(questions.c lines 177-188): a record that parses is appended to the bank
and counted; one that fails to parse is skipped and the load continues. -/
def load_step (acc : Nat × List Question) (r : RawRecord) : Nat × List Question :=
  match parse_json_question r with
  | some q => (acc.1 + 1, acc.2 ++ [q])
  | none => acc

/-- question_bank_load_from_json (questions.c lines 138-196) over the
brace-delimited records of the file, returning the loaded count and the
bank contents. -/
def question_bank_load (records : List RawRecord) : Nat × List Question :=
  records.foldl load_step (0, [])

/-- The claim's example record: correct = 5 with only 4 options. -/
def badCorrectRecord : RawRecord :=
  { question := some ['q']
    options := some [['a'], ['b'], ['c'], ['d']]
    correct := some 5
    difficulty := some ['e', 'a', 's', 'y'] }

/-- A record that parses successfully, for the loader witnesses. -/
def goodRecord : RawRecord :=
  { question := some ['g']
    options := some [['a'], ['b']]
    correct := some 1
    difficulty := none }

/-- The mutable countdown state of timer.h's Timer.  The pthread handle is
represented by a ghost flag recording whether the countdown thread spawned
by timer_start is still alive; every mutex-protected critical section of
timer.c becomes one atomic event below. -/
structure Timer : Type where
  seconds : Int
  remaining : Int
  running : Bool
  expired : Bool
  threadAlive : Bool
deriving DecidableEq, Repr

/-- The atomic events of the countdown: start is timer_start together with
the thread's entry block (timer.c lines 25-29); tick is one pass of the
countdown loop body (lines 32-42); finish is the thread's exit block (lines
45-50), enabled once the loop condition fails or the running flag was
cleared; stopSignal is the flag-clearing section of timer_stop (lines
101-103), whose subsequent join is the finish event; reset is the
reinitialization section of timer_reset (lines 145-149), which the code
performs only after any running countdown has been stopped and joined. -/
inductive TimerEvent : Type
  | start
  | tick
  | finish
  | stopSignal
  | reset (s : Int)
deriving DecidableEq, Repr

/-- timer_init (timer.c lines 55-74); the code rejects seconds <= 0, so
initial states are only formed for positive durations. -/
def timer_init (s : Int) : Timer :=
  { seconds := s, remaining := s, running := false, expired := false,
    threadAlive := false }

/-- One event of the countdown state machine.  Guarded events leave the
state unchanged when their enabling condition fails (timer_start refuses to
start a running timer; ticking and finishing are only possible while the
thread is alive; the reset assignment happens after the join, i.e. with no
thread alive, and timer_reset rejects a non-positive duration). -/
def timer_step : TimerEvent → Timer → Timer
  | .start, t =>
    if t.threadAlive = false ∧ t.running = false then
      { t with running := true, expired := false, remaining := t.seconds,
               threadAlive := true }
    else t
  | .tick, t =>
    if t.threadAlive = true ∧ t.running = true ∧ 0 < t.remaining then
      { t with remaining := t.remaining - 1 }
    else t
  | .finish, t =>
    if t.threadAlive = true ∧ (t.remaining ≤ 0 ∨ t.running = false) then
      { t with expired := if t.remaining = 0 then true else t.expired,
               running := false, threadAlive := false }
    else t
  | .stopSignal, t => { t with running := false }
  | .reset s, t =>
    if t.threadAlive = false ∧ 0 < s then
      { t with seconds := s, remaining := s, expired := false }
    else t

/-- The timer states reachable from a valid initialization. -/
inductive TimerReachable : Timer → Prop
  | init (s : Int) (h : 0 < s) : TimerReachable (timer_init s)
  | step (e : TimerEvent) {t : Timer} (h : TimerReachable t) :
      TimerReachable (timer_step e t)

/-- The state invariant of claim C8: remaining stays within [0, seconds],
the expired flag implies the countdown ran to zero and is not running, and
a running countdown has a live thread. -/
def TimerInv (t : Timer) : Prop :=
  0 ≤ t.remaining ∧ t.remaining ≤ t.seconds ∧ 0 < t.seconds ∧
  (t.expired = true → t.remaining = 0 ∧ t.running = false) ∧
  (t.running = true → t.threadAlive = true)

/-- A one-second countdown run to expiry. -/
def expiredTimer : Timer :=
  timer_step .finish (timer_step .tick (timer_step .start (timer_init 1)))

/-- C truncated division by 2, expressed through Euclidean division. -/
theorem tdiv_two_eq (a : Int) :
    Int.tdiv a 2 = if 0 ≤ a then a / 2 else -((-a) / 2) := by
  by_cases h : 0 ≤ a
  · simp only [h, if_true]
    exact Int.tdiv_eq_ediv h (by omega)
  · simp only [h, if_false]
    rw [show a = -(-a) by ring, Int.neg_tdiv, Int.tdiv_eq_ediv (by omega) (by omega)]
    simp

/-- Truncated division by 2 is monotone in the numerator. -/
theorem tdiv_two_mono {a b : Int} (h : a ≤ b) : Int.tdiv a 2 ≤ Int.tdiv b 2 := by
  rw [tdiv_two_eq, tdiv_two_eq]
  by_cases ha : 0 ≤ a <;> by_cases hb : 0 ≤ b
  · simp only [ha, hb, if_true]
    exact Int.ediv_le_ediv (by omega) h
  · omega
  · simp only [ha, hb, if_true, if_false]
    have h1 : 0 ≤ (-a) / 2 := Int.ediv_nonneg (by omega) (by omega)
    have h2 : 0 ≤ b / 2 := Int.ediv_nonneg hb (by omega)
    omega
  · simp only [ha, hb, if_false]
    have : (-b) / 2 ≤ (-a) / 2 := Int.ediv_le_ediv (by omega) (by omega)
    omega

/-- Claim C1 counterexample: the claim quantifies over every integer
time_remaining and asserts the bonus is floor(time_remaining / 2), but the C
code computes `time_remaining / 2` with C `int` division, which truncates
toward zero.  At time_remaining = -1 the code returns 10 for an Easy correct
answer while the claimed formula gives 10 + floor(-1/2) = 9. -/
theorem C1_counterexample :
    game_calculate_score true (-1) .easy = 10 ∧
    base_points .easy + (-1 : Int) / 2 = 9 ∧
    game_calculate_score true (-1) .easy ≠ base_points .easy + (-1 : Int) / 2 := by
  decide

/-- Claim C1 (amended): for every boolean correct, integer time_remaining and
difficulty tier, the score is 0 when correct is false; when correct is true
and time_remaining is non-negative it is base(difficulty) + floor(time_remaining
/ 2) with base(Easy)=10, base(Medium)=20, base(Hard)=30 (at negative
time_remaining, unreachable in the game, the C division truncates toward zero
instead of flooring); in particular score(true, 10, Medium) = 25,
score(true, 0, Easy) = 10 and score(false, 29, Hard) = 0. -/
theorem C1_amended (t : Int) (d : Difficulty) (h : 0 ≤ t) :
    game_calculate_score false t d = 0 ∧
    game_calculate_score true t d = base_points d + t / 2 ∧
    game_calculate_score true 10 .medium = 25 ∧
    game_calculate_score true 0 .easy = 10 ∧
    game_calculate_score false 29 .hard = 0 := by
  refine ⟨rfl, ?_, by decide, by decide, by decide⟩
  show base_points d + Int.tdiv t 2 = base_points d + t / 2
  rw [Int.tdiv_eq_ediv h (by omega)]

/-- Witness for C1_amended at time_remaining = 10, Medium difficulty. -/
theorem C1_amended_witness :
    (0 : Int) ≤ 10 ∧
    game_calculate_score true 10 .medium = base_points .medium + 10 / 2 :=
  ⟨by decide, (C1_amended 10 .medium (by decide)).2.1⟩

/-- Claim C9: for every fixed difficulty tier and correct = true, the score
function is monotonically non-decreasing in time_remaining. -/
theorem C9_score_monotone (d : Difficulty) (t1 t2 : Int) (h : t1 ≤ t2) :
    game_calculate_score true t1 d ≤ game_calculate_score true t2 d := by
  show base_points d + Int.tdiv t1 2 ≤ base_points d + Int.tdiv t2 2
  exact add_le_add_left (tdiv_two_mono h) _

/-- Witness for C9_score_monotone at t1 = 3, t2 = 10, Hard difficulty. -/
theorem C9_witness :
    (3 : Int) ≤ 10 ∧
    game_calculate_score true 3 .hard ≤ game_calculate_score true 10 .hard :=
  ⟨by decide, C9_score_monotone .hard 3 10 (by decide)⟩

/-- A string accepted by is_valid_integer cannot start with q or Q. -/
theorem valid_integer_head {s : List Char} {n : Int}
    (h : is_valid_integer s = some n) :
    s.head? ≠ some 'q' ∧ s.head? ≠ some 'Q' := by
  cases s with
  | nil => simp [is_valid_integer] at h
  | cons c t =>
    constructor <;> intro hq <;>
      (simp only [List.head?_cons, Option.some.injEq] at hq; subst hq;
       simp [is_valid_integer, List.dropWhile_cons, List.takeWhile_cons,
             show c_isspace 'q' = false from rfl,
             show c_isspace 'Q' = false from rfl,
             show Char.isDigit 'q' = false from rfl,
             show Char.isDigit 'Q' = false from rfl] at h)

/-- Claim C2 counterexample: for a question with only two options, the input
line consisting of the digit 3 is accepted by the code as Choice 3 — the
range check in game_ask_question compares against MAX_OPTIONS = 4, not the
question's actual option count — whereas the claim requires any integer
outside [1, option_count] to be classified Invalid. -/
theorem C2_counterexample :
    twoOptionQuestion.options.length = 2 ∧
    ¬ ((1 : Int) ≤ 3 ∧ (3 : Int) ≤ (twoOptionQuestion.options.length : Int)) ∧
    classify_input ['3'] = RoundInput.choice 3 ∧
    classify_input ['3'] ≠ RoundInput.invalid := by
  decide

/-- Claim C2 (amended): during a timed round, an input line that parses as an
integer is accepted as a Choice if and only if it lies in the fixed range
[1, MAX_OPTIONS] = [1, 4], regardless of the question's actual number of
options; any integer outside that fixed range is classified as Invalid,
causing a reprompt that yields no round outcome (so it is not counted against
the player and changes no stats). -/
theorem C2_amended (raw : List Char) (rest : List (List Char)) (n : Int)
    (h : is_valid_integer (sanitize_input raw) = some n) :
    (classify_input raw =
       if 1 ≤ n ∧ n ≤ (MAX_OPTIONS : Int) then RoundInput.choice n
       else RoundInput.invalid) ∧
    (¬ (1 ≤ n ∧ n ≤ (MAX_OPTIONS : Int)) →
       game_ask_question (raw :: rest) = game_ask_question rest) := by
  have hh := valid_integer_head h
  have hcond : ¬ ((sanitize_input raw).head? = some 'q' ∨
      (sanitize_input raw).head? = some 'Q') := not_or.mpr hh
  have hcl : classify_input raw =
      if 1 ≤ n ∧ n ≤ (MAX_OPTIONS : Int) then RoundInput.choice n
      else RoundInput.invalid := by
    unfold classify_input
    rw [if_neg hcond, h]
  refine ⟨hcl, fun hrange => ?_⟩
  have hinv : classify_input raw = RoundInput.invalid := by
    rw [hcl, if_neg hrange]
  show game_ask_question (raw :: rest) = game_ask_question rest
  simp only [game_ask_question]
  rw [hinv]

/-- Witness for C2_amended at the input line "7" (a valid integer outside
[1, 4]): it is classified Invalid and produces no round outcome. -/
theorem C2_amended_witness :
    classify_input ['7'] = RoundInput.invalid ∧
    game_ask_question [['7']] = game_ask_question [] := by
  have h := C2_amended ['7'] [] 7 (by decide)
  exact ⟨by rw [h.1]; decide, h.2 (by decide)⟩

/-- Claim C3: a round whose sanitized input starts with q or Q resolves to
Quit (game_ask_question returns -1), and on Quit the session terminates
immediately: game_run breaks out of the loop before any score or stats
update, processes no further rounds, and the final report is produced from
the unchanged state. -/
theorem C3_quit_terminates (raw : List Char) (rest : List (List Char))
    (g : GameState) (ev : RoundEvent) (evs : List RoundEvent)
    (hq : (sanitize_input raw).head? = some 'q' ∨
          (sanitize_input raw).head? = some 'Q')
    (hquit : ev.user_answer = -1) :
    classify_input raw = RoundInput.quit ∧
    game_ask_question (raw :: rest) = -1 ∧
    game_run_loop g (ev :: evs) = g := by
  have hcl : classify_input raw = RoundInput.quit := by
    unfold classify_input
    rw [if_pos hq]
  refine ⟨hcl, ?_, ?_⟩
  · show game_ask_question (raw :: rest) = -1
    unfold game_ask_question
    rw [hcl]
  · show game_run_loop g (ev :: evs) = g
    unfold game_run_loop
    rw [if_pos hquit]

/-- Witness for C3_quit_terminates at the input line "q" and a quit round. -/
theorem C3_witness :
    classify_input ['q'] = RoundInput.quit ∧
    game_ask_question [['q']] = -1 ∧
    game_run_loop (game_init 1) [⟨0, .easy, -1, 0⟩] = game_init 1 :=
  C3_quit_terminates ['q'] [] (game_init 1) ⟨0, .easy, -1, 0⟩ []
    (by decide) (by decide)

/-- play_round never changes the player count. -/
theorem play_round_num_players (ev : RoundEvent) (g : GameState) :
    (play_round ev g).num_players = g.num_players := by
  unfold play_round
  split <;> rfl

/-- In multiplayer, play_round advances the current player modulo N. -/
theorem play_round_current (ev : RoundEvent) (g : GameState)
    (h : 1 < g.num_players) :
    (play_round ev g).current_player = (g.current_player + 1) % g.num_players := by
  unfold play_round
  rw [if_pos h]
  show game_next_player g.num_players g.current_player = _
  unfold game_next_player
  rw [if_neg (by omega)]

/-- After k non-quit rounds the current player has advanced by k mod N. -/
theorem run_loop_current (N : Nat) (hN : 1 < N) :
    ∀ (evs : List RoundEvent) (g : GameState), g.num_players = N →
      g.current_player < N →
      (∀ ev ∈ evs, ev.user_answer ≠ -1) →
      (game_run_loop g evs).current_player = (g.current_player + evs.length) % N
  | [], g, _, hc, _ => by
      simp [game_run_loop, Nat.mod_eq_of_lt hc]
  | ev :: rest, g, hg, hc, hnq => by
      unfold game_run_loop
      rw [if_neg (hnq ev (List.mem_cons_self ev rest))]
      rw [run_loop_current N hN rest (play_round ev g)
            (by rw [play_round_num_players]; exact hg)
            (by rw [play_round_current ev g (by omega), hg]
                exact Nat.mod_lt _ (by omega))
            (fun e he => hnq e (List.mem_cons_of_mem _ he))]
      rw [play_round_current ev g (by omega), hg, List.length_cons,
          Nat.mod_add_mod]
      congr 1
      omega

/-- Claim C5: for player_count N > 1 the current-player index starts at 0 and
equals k mod N after k completed (non-quit) rounds, each round advancing it
by (index+1) mod N; when N = 1 game_next_player never advances the index. -/
theorem C5_turn_rotation (N : Nat) (evs : List RoundEvent) (c : Nat)
    (hN : 1 < N) (hnq : ∀ ev ∈ evs, ev.user_answer ≠ -1) :
    (game_init N).current_player = 0 ∧
    (game_run_loop (game_init N) evs).current_player = evs.length % N ∧
    game_next_player 1 c = c := by
  refine ⟨rfl, ?_, rfl⟩
  have h0 : (game_init N).current_player < N := by
    show 0 < N
    omega
  simpa [game_init] using run_loop_current N hN evs (game_init N) rfl h0 hnq

/-- Witness for C5_turn_rotation: 3 players, 2 completed rounds. -/
theorem C5_witness :
    (game_run_loop (game_init 3)
        [⟨0, .easy, 1, 0⟩, ⟨0, .easy, 0, 0⟩]).current_player = 2 % 3 ∧
    game_next_player 1 5 = 5 := by
  have h := C5_turn_rotation 3 [⟨0, .easy, 1, 0⟩, ⟨0, .easy, 0, 0⟩] 5
    (by decide) (by decide)
  exact ⟨h.2.1, h.2.2⟩

/-- In multiplayer, play_round leaves the aggregate stats untouched. -/
theorem play_round_stats_multi (ev : RoundEvent) (g : GameState)
    (h : 1 < g.num_players) : (play_round ev g).stats = g.stats := by
  unfold play_round
  rw [if_pos h]

/-- In single-player, play_round applies update_stats to the aggregate. -/
theorem play_round_stats_single (ev : RoundEvent) (g : GameState)
    (h : ¬ 1 < g.num_players) :
    (play_round ev g).stats = update_stats ev g.stats := by
  unfold play_round
  rw [if_neg h]

/-- The score contribution of one single-player round. -/
theorem update_stats_score (ev : RoundEvent) (st : GameStats) :
    (update_stats ev st).score = st.score +
      (if ev.user_answer ≠ 0 ∧ ev.user_answer = ev.q_correct + 1
       then game_calculate_score true ev.time_remaining ev.q_difficulty
       else 0) := by
  unfold update_stats
  split_ifs <;> simp_all

/-- In multiplayer, the whole game loop never touches the aggregate stats. -/
theorem run_loop_stats_multi :
    ∀ (evs : List RoundEvent) (g : GameState),
      1 < g.num_players → (game_run_loop g evs).stats = g.stats
  | [], _, _ => rfl
  | ev :: rest, g, h => by
      unfold game_run_loop
      split
      · rfl
      · rw [run_loop_stats_multi rest (play_round ev g)
              (by rw [play_round_num_players]; exact h),
            play_round_stats_multi ev g h]

/-- In single-player, the loop accumulates exactly rounds_score. -/
theorem run_loop_score_single :
    ∀ (evs : List RoundEvent) (g : GameState), g.num_players = 1 →
      (game_run_loop g evs).stats.score = g.stats.score + rounds_score evs
  | [], g, _ => by simp [game_run_loop, rounds_score]
  | ev :: rest, g, h => by
      unfold game_run_loop rounds_score
      by_cases hq : ev.user_answer = -1
      · simp [hq]
      · rw [if_neg hq, if_neg hq,
            run_loop_score_single rest (play_round ev g)
              (by rw [play_round_num_players]; exact h),
            play_round_stats_single ev g (by omega), update_stats_score]
        ring

/-- Claim C10: game_run returns the aggregate stats score field; in
multiplayer (player_count > 1) that field is never updated, so the return
value is always 0, while in single-player it equals the player's accumulated
score over the rounds played before any quit. -/
theorem C10_return_value (N : Nat) (evs : List RoundEvent) (hN : 1 < N) :
    game_run (game_init N) evs = 0 ∧
    game_run (game_init 1) evs = rounds_score evs := by
  constructor
  · show (game_run_loop (game_init N) evs).stats.score = 0
    rw [run_loop_stats_multi evs (game_init N) hN]
    rfl
  · show (game_run_loop (game_init 1) evs).stats.score = rounds_score evs
    rw [run_loop_score_single evs (game_init 1) rfl]
    simp [game_init]

/-- Witness for C10_return_value: two players, one answered round. -/
theorem C10_witness :
    game_run (game_init 2) [⟨0, .easy, 1, 4⟩] = 0 ∧
    game_run (game_init 1) [⟨0, .easy, 1, 4⟩] =
      rounds_score [⟨0, .easy, 1, 4⟩] :=
  C10_return_value 2 [⟨0, .easy, 1, 4⟩] (by decide)

/-- The seed of a left max-fold is a lower bound of the result. -/
theorem le_foldl_max (l : List Int) : ∀ a : Int, a ≤ l.foldl max a := by
  induction l with
  | nil => intro a; exact le_refl a
  | cons x r ih => intro a; exact le_trans (le_max_left a x) (ih (max a x))

/-- A left max-fold returns its seed or an element of the list. -/
theorem foldl_max_mem (l : List Int) :
    ∀ a : Int, l.foldl max a = a ∨ l.foldl max a ∈ l := by
  induction l with
  | nil => intro a; exact Or.inl rfl
  | cons x r ih =>
    intro a
    rcases ih (max a x) with h | h
    · rcases max_choice a x with hm | hm
      · left; rw [List.foldl_cons, h, hm]
      · right; rw [List.foldl_cons, h, hm]; exact List.mem_cons_self x r
    · right; exact List.mem_cons_of_mem x h

/-- Loop invariant of the winner scan: the first component is the running
maximum extended over the rest of the list, and the tie flag ends true
exactly when, relative to the already-scanned prefix summarized by (mx, tie),
the final maximum is attained at least twice. -/
theorem find_winner_aux_spec :
    ∀ (rest : List Int) (mx : Int) (widx i : Nat) (tie : Bool),
    (find_winner_aux rest mx widx i tie).1 = rest.foldl max mx ∧
    ((find_winner_aux rest mx widx i tie).2.2 = true ↔
      (if rest.foldl max mx = mx
       then tie = true ∨ 1 ≤ rest.countP (fun x => decide (x = mx))
       else 2 ≤ rest.countP (fun x => decide (x = rest.foldl max mx))))
  | [], mx, widx, i, tie => by
      simp [find_winner_aux]
  | s :: r, mx, widx, i, tie => by
      by_cases h1 : mx < s
      · obtain ⟨ih1, ih2⟩ := find_winner_aux_spec r s i (i + 1) false
        have hstep : find_winner_aux (s :: r) mx widx i tie =
            find_winner_aux r s i (i + 1) false := by
          simp [find_winner_aux, h1]
        have hfold : (s :: r).foldl max mx = r.foldl max s := by
          rw [List.foldl_cons, max_eq_right h1.le]
        have hMge : s ≤ r.foldl max s := le_foldl_max r s
        have hMne : ¬ r.foldl max s = mx := by omega
        rw [hstep, hfold]
        refine ⟨ih1, ?_⟩
        rw [if_neg hMne, ih2]
        by_cases hMs : r.foldl max s = s
        · rw [if_pos hMs, hMs, List.countP_cons]
          simp
        · rw [if_neg hMs, List.countP_cons,
              show (decide (s = r.foldl max s)) = false by
                simp; exact fun hh => hMs hh.symm]
          simp
      · by_cases h2 : s = mx
        · subst h2
          obtain ⟨ih1, ih2⟩ := find_winner_aux_spec r s widx (i + 1) true
          have hstep : find_winner_aux (s :: r) s widx i tie =
              find_winner_aux r s widx (i + 1) true := by
            simp [find_winner_aux, h1]
          have hfold : (s :: r).foldl max s = r.foldl max s := by
            rw [List.foldl_cons, max_self]
          rw [hstep, hfold]
          refine ⟨ih1, ?_⟩
          rw [ih2]
          by_cases hM : r.foldl max s = s
          · rw [if_pos hM, if_pos hM, List.countP_cons]
            simp
          · rw [if_neg hM, if_neg hM, List.countP_cons,
                show (decide (s = r.foldl max s)) = false by
                  simp; exact fun hh => hM hh.symm]
            simp
        · have hlt : s < mx := lt_of_le_of_ne (not_lt.mp h1) h2
          obtain ⟨ih1, ih2⟩ := find_winner_aux_spec r mx widx (i + 1) tie
          have hstep : find_winner_aux (s :: r) mx widx i tie =
              find_winner_aux r mx widx (i + 1) tie := by
            simp [find_winner_aux, h1, h2]
          have hfold : (s :: r).foldl max mx = r.foldl max mx := by
            rw [List.foldl_cons, max_eq_left hlt.le]
          have hMge : mx ≤ r.foldl max mx := le_foldl_max r mx
          rw [hstep, hfold]
          refine ⟨ih1, ?_⟩
          rw [ih2]
          by_cases hM : r.foldl max mx = mx
          · rw [if_pos hM, if_pos hM, List.countP_cons,
                show (decide (s = mx)) = false by simp [h2]]
            simp
          · rw [if_neg hM, if_neg hM, List.countP_cons,
                show (decide (s = r.foldl max mx)) = false by
                  simp; omega]
            simp

/-- The maximum of a nonempty score list is attained at least once. -/
theorem countP_max_pos (s0 : Int) (rest : List Int) :
    1 ≤ (s0 :: rest).countP (fun x => decide (x = rest.foldl max s0)) := by
  rw [List.countP_cons]
  rcases foldl_max_mem rest s0 with h | h
  · simp [h]
  · have : 0 < rest.countP (fun x => decide (x = rest.foldl max s0)) :=
      List.countP_pos_iff.mpr ⟨rest.foldl max s0, h, by simp⟩
    omega

/-- Claim C4: the report designates a single winner (tie flag false) if and
only if exactly one player attains the maximum final score, and reports a
tie (no designated winner) whenever two or more share the maximum; the first
component of the result is that maximum.  Concretely, scores [10, 10, 5]
yield a tie and scores [10, 5, 5] yield player 0 as sole winner. -/
theorem C4_tie_detection (s0 : Int) (rest : List Int) :
    (find_winner s0 rest).1 = rest.foldl max s0 ∧
    ((find_winner s0 rest).2.2 = false ↔
      (s0 :: rest).countP (fun x => decide (x = rest.foldl max s0)) = 1) ∧
    ((find_winner s0 rest).2.2 = true ↔
      2 ≤ (s0 :: rest).countP (fun x => decide (x = rest.foldl max s0))) ∧
    find_winner 10 [10, 5] = (10, 0, true) ∧
    find_winner 10 [5, 5] = (10, 0, false) := by
  obtain ⟨h1, h2⟩ := find_winner_aux_spec rest s0 0 1 false
  have hpos := countP_max_pos s0 rest
  have htrue : ((find_winner s0 rest).2.2 = true ↔
      2 ≤ (s0 :: rest).countP (fun x => decide (x = rest.foldl max s0))) := by
    rw [List.countP_cons]
    show (find_winner_aux rest s0 0 1 false).2.2 = true ↔ _
    rw [h2]
    by_cases hM : rest.foldl max s0 = s0
    · rw [if_pos hM, hM]
      simp
    · rw [if_neg hM,
          show (decide (s0 = rest.foldl max s0)) = false by
            simp; exact fun hh => hM hh.symm]
      simp
  refine ⟨h1, ?_, htrue, by decide, by decide⟩
  rw [← Bool.not_eq_true, htrue]
  omega

/-- A record whose correct index is outside the option range is rejected. -/
theorem parse_reject (r : RawRecord) (qt : List Char)
    (opts : List (List Char)) (c : Int)
    (hq : r.question = some qt) (ho : r.options = some opts)
    (hc : r.correct = some c)
    (hbad : c < 0 ∨ (opts.length : Int) ≤ c) :
    parse_json_question r = none := by
  obtain ⟨rq, ro, rc, rd⟩ := r
  simp only at hq ho hc
  subst hq
  subst ho
  subst hc
  have hlen : (opts.take MAX_OPTIONS).length = min MAX_OPTIONS opts.length :=
    List.length_take MAX_OPTIONS opts
  have hcond : c < 0 ∨ ((opts.take MAX_OPTIONS).length : Int) ≤ c := by
    rcases hbad with h | h
    · exact Or.inl h
    · right; omega
  simp only [parse_json_question]
  rw [if_pos hcond]

/-- A record that fails to parse leaves the loader state unchanged. -/
theorem load_step_none {acc : Nat × List Question} {r : RawRecord}
    (h : parse_json_question r = none) : load_step acc r = acc := by
  simp [load_step, h]

/-- The loader counts exactly the records that parse, and the count always
matches the number of questions appended to the bank. -/
theorem question_bank_load_spec :
    ∀ (records : List RawRecord) (acc : Nat × List Question),
      (records.foldl load_step acc).1 =
        acc.1 + records.countP (fun x => (parse_json_question x).isSome) ∧
      (records.foldl load_step acc).2.length =
        acc.2.length + records.countP (fun x => (parse_json_question x).isSome)
  | [], acc => by simp
  | r :: rs, acc => by
      obtain ⟨ih1, ih2⟩ := question_bank_load_spec rs (load_step acc r)
      rw [List.foldl_cons]
      constructor
      · rw [ih1, List.countP_cons]
        cases hp : parse_json_question r <;> simp [load_step, hp] <;> omega
      · rw [ih2, List.countP_cons]
        cases hp : parse_json_question r <;> simp [load_step, hp] <;> omega

/-- Claim C6: a record whose correct index lies outside [0, options.length)
is excluded from the question bank without aborting the load (the records
before and after it are loaded exactly as if it were absent), and the
loader's return value equals exactly the number of records that were parsed
and added successfully (it also equals the resulting bank size). -/
theorem C6_load_rejection (records1 records2 : List RawRecord)
    (r : RawRecord) (qt : List Char) (opts : List (List Char)) (c : Int)
    (hq : r.question = some qt) (ho : r.options = some opts)
    (hc : r.correct = some c)
    (hbad : c < 0 ∨ (opts.length : Int) ≤ c) :
    parse_json_question r = none ∧
    question_bank_load (records1 ++ r :: records2) =
      question_bank_load (records1 ++ records2) ∧
    ∀ records : List RawRecord,
      (question_bank_load records).1 =
        records.countP (fun x => (parse_json_question x).isSome) ∧
      (question_bank_load records).1 =
        (question_bank_load records).2.length := by
  have hnone := parse_reject r qt opts c hq ho hc hbad
  refine ⟨hnone, ?_, ?_⟩
  · unfold question_bank_load
    rw [List.foldl_append, List.foldl_append, List.foldl_cons,
        load_step_none hnone]
  · intro records
    obtain ⟨h1, h2⟩ := question_bank_load_spec records (0, [])
    unfold question_bank_load
    rw [h1, h2]
    simp

/-- Witness for C6_load_rejection at the claim's example: correct = 5 with
4 options, placed before a well-formed record. -/
theorem C6_witness :
    parse_json_question badCorrectRecord = none ∧
    question_bank_load [badCorrectRecord, goodRecord] =
      question_bank_load [goodRecord] :=
  have h := C6_load_rejection [] [goodRecord] badCorrectRecord
    ['q'] [['a'], ['b'], ['c'], ['d']] 5 rfl rfl rfl (by decide)
  ⟨h.1, h.2.1⟩

/-- A string starting with the medium keyword does not start with the easy
keyword. -/
theorem med_not_easy {s : List Char}
    (h : List.isPrefixOf ['m', 'e', 'd', 'i', 'u', 'm'] s = true) :
    List.isPrefixOf ['e', 'a', 's', 'y'] s = false := by
  cases s with
  | nil => rfl
  | cons c t =>
    simp only [List.isPrefixOf, Bool.and_eq_true, beq_iff_eq] at h
    rw [← h.1]
    rfl

/-- A string starting with the hard keyword does not start with the easy
keyword. -/
theorem hard_not_easy {s : List Char}
    (h : List.isPrefixOf ['h', 'a', 'r', 'd'] s = true) :
    List.isPrefixOf ['e', 'a', 's', 'y'] s = false := by
  cases s with
  | nil => rfl
  | cons c t =>
    simp only [List.isPrefixOf, Bool.and_eq_true, beq_iff_eq] at h
    rw [← h.1]
    rfl

/-- A string starting with the hard keyword does not start with the medium
keyword. -/
theorem hard_not_med {s : List Char}
    (h : List.isPrefixOf ['h', 'a', 'r', 'd'] s = true) :
    List.isPrefixOf ['m', 'e', 'd', 'i', 'u', 'm'] s = false := by
  cases s with
  | nil => rfl
  | cons c t =>
    simp only [List.isPrefixOf, Bool.and_eq_true, beq_iff_eq] at h
    rw [← h.1]
    rfl

/-- Claim C7 counterexample: difficulty mapping is by strncmp with the
keyword's length, i.e. a prefix comparison: the string "hardcore" parses to
Hard, while the claim requires every string other than the exact
"easy"/"medium"/"hard" to yield Easy. -/
theorem C7_counterexample :
    parse_difficulty (some ['h', 'a', 'r', 'd', 'c', 'o', 'r', 'e']) =
      Difficulty.hard ∧
    Difficulty.hard ≠ Difficulty.easy := by
  decide

/-- Claim C7 (amended): the difficulty field maps by case-sensitive prefix
comparison, tried in the order easy, medium, hard: a value starting with
"medium" parses to Medium, one starting with "hard" parses to Hard, the
exact strings map to their tiers, and when the field is absent or matches no
keyword the difficulty is Easy. -/
theorem C7_amended (s : List Char) :
    parse_difficulty none = Difficulty.easy ∧
    parse_difficulty (some ['e', 'a', 's', 'y']) = Difficulty.easy ∧
    parse_difficulty (some ['m', 'e', 'd', 'i', 'u', 'm']) = Difficulty.medium ∧
    parse_difficulty (some ['h', 'a', 'r', 'd']) = Difficulty.hard ∧
    (parse_difficulty (some s) = Difficulty.medium ↔
      List.isPrefixOf ['m', 'e', 'd', 'i', 'u', 'm'] s = true) ∧
    (parse_difficulty (some s) = Difficulty.hard ↔
      List.isPrefixOf ['h', 'a', 'r', 'd'] s = true) ∧
    (List.isPrefixOf ['e', 'a', 's', 'y'] s = false →
     List.isPrefixOf ['m', 'e', 'd', 'i', 'u', 'm'] s = false →
     List.isPrefixOf ['h', 'a', 'r', 'd'] s = false →
     parse_difficulty (some s) = Difficulty.easy) := by
  refine ⟨rfl, by decide, by decide, by decide, ?_, ?_, ?_⟩
  · constructor
    · intro h
      by_cases he : List.isPrefixOf ['e', 'a', 's', 'y'] s = true
      · simp [parse_difficulty, he] at h
      · by_cases hm : List.isPrefixOf ['m', 'e', 'd', 'i', 'u', 'm'] s = true
        · exact hm
        · by_cases hh : List.isPrefixOf ['h', 'a', 'r', 'd'] s = true <;>
            simp [parse_difficulty, he, hm, hh] at h
    · intro hm
      simp [parse_difficulty, hm, med_not_easy hm]
  · constructor
    · intro h
      by_cases he : List.isPrefixOf ['e', 'a', 's', 'y'] s = true
      · simp [parse_difficulty, he] at h
      · by_cases hm : List.isPrefixOf ['m', 'e', 'd', 'i', 'u', 'm'] s = true
        · simp [parse_difficulty, he, hm] at h
        · by_cases hh : List.isPrefixOf ['h', 'a', 'r', 'd'] s = true
          · exact hh
          · simp [parse_difficulty, he, hm, hh] at h
    · intro hh
      simp [parse_difficulty, hh, hard_not_easy hh, hard_not_med hh]
  · intro he hm hh
    simp [parse_difficulty, he, hm, hh]

/-- Witness for C7_amended at an unrecognized difficulty string. -/
theorem C7_amended_witness :
    parse_difficulty (some ['x']) = Difficulty.easy :=
  (C7_amended ['x']).2.2.2.2.2.2 (by decide) (by decide) (by decide)

/-- Every reachable timer state satisfies the countdown invariant. -/
theorem timer_inv {t : Timer} (hr : TimerReachable t) : TimerInv t := by
  induction hr with
  | init s h =>
    simp [timer_init, TimerInv]
    omega
  | step e h ih =>
    obtain ⟨i1, i2, i3, i4, i5⟩ := ih
    cases e <;> simp only [timer_step] <;>
      first
      | (split_ifs with hg <;> simp_all [TimerInv] <;> omega)
      | simp_all [TimerInv]

/-- Claim C8 counterexample: the expired flag does not stay true until a
reset — starting a new countdown on an expired timer clears it, because the
spawned thread's entry block rewrites expired to false (timer.c line 27). -/
theorem C8_counterexample :
    TimerReachable expiredTimer ∧
    expiredTimer.expired = true ∧
    (timer_step .start expiredTimer).expired = false := by
  refine ⟨?_, by decide, by decide⟩
  exact .step .finish (.step .tick (.step .start (.init 1 (by decide))))

/-- Claim C8 (amended): on every reachable timer state, remaining stays in
[0, duration]; while the countdown is running it is monotonically
non-increasing (and never goes below 0); the expired flag becomes true only
when the countdown thread completes with remaining = 0; it then stays true
under every event except a reset — or the start of a new countdown run,
whose thread reinitializes the state — and a reset sets remaining to the
new duration and expired back to false. -/
theorem C8_amended (t : Timer) (e : TimerEvent) (hr : TimerReachable t) :
    TimerInv t ∧
    (t.running = true → (timer_step e t).running = true →
      (timer_step e t).remaining ≤ t.remaining) ∧
    (t.expired = false → (timer_step e t).expired = true →
      e = .finish ∧ t.remaining = 0) ∧
    (t.expired = true → e ≠ .start → (∀ s, e ≠ .reset s) →
      (timer_step e t).expired = true) ∧
    (∀ s, 0 < s → t.threadAlive = false →
      timer_step (.reset s) t =
        { t with seconds := s, remaining := s, expired := false }) := by
  have inv := timer_inv hr
  obtain ⟨i1, i2, i3, i4, i5⟩ := inv
  refine ⟨⟨i1, i2, i3, i4, i5⟩, ?_, ?_, ?_, ?_⟩
  · intro hrun hpost
    cases e <;> simp only [timer_step] at hpost ⊢ <;>
      first
      | (split_ifs with hg <;> simp_all)
      | simp_all
  · intro hpre hpost
    cases e <;> simp only [timer_step] at hpost <;>
      first
      | (split_ifs at hpost with hg <;> simp_all)
      | simp_all
  · intro hpre hstart hreset
    cases e with
    | start => exact absurd rfl hstart
    | reset s => exact absurd rfl (hreset s)
    | tick => simp only [timer_step]; split_ifs <;> simp_all
    | stopSignal => simp_all [timer_step]
    | finish =>
      simp only [timer_step]
      split_ifs with hg <;> simp_all
  · intro s hs hta
    simp only [timer_step]
    rw [if_pos ⟨hta, hs⟩]

/-- Witness for C8_amended at a freshly initialized five-second timer. -/
theorem C8_amended_witness : TimerInv (timer_init 5) :=
  (C8_amended (timer_init 5) TimerEvent.tick
    (TimerReachable.init 5 (by decide))).1

end Trivia
